import Mathlib

/-!
Verification development for the distance-matrix assembly, tree-validation,
and measurement-recording subsystem of the corpus_distance repository.

Python sources embedded here:
  * src/corpus_distance/clusterisation/utils.py
      (create_distance_matrix, detect_outgroup)
  * src/corpus_distance/distance_measurement/analysis.py
      (MeasurementInfoParams, save_distances_info, save_data_for_analysis)

Modelling conventions:
  * The filesystem is an explicit value: a list of existing directories and
    an association list from path to file content.  Opening a file with
    mode w replaces the content, mode a appends to the current content
    (empty if the file is absent), as in Python.
  * Functions that raise exceptions return Except String FS; an error
    result means the exception propagated before any state in the result
    was produced, so on error the caller still holds the old filesystem.
  * Numeric distances that the code looks up and compares are rationals;
    values that the code only ever renders into output text (Python
    str() of a float, branch lengths interpolated into an f-string) are
    carried as already-rendered strings, because the decimal rendering is
    done by the Python runtime, not by this repository.
-/

set_option autoImplicit false

namespace CorpusDistance

/-- A model filesystem: the set of existing directories, and the files as an
association list from path to content.  A later entry for the same path is
shadowed by an earlier one, so updates cons a fresh entry. -/
structure FS where
  dirs : List String
  files : List (String × String)
  deriving Repr, DecidableEq

/-- Content of the file at path p, empty string if the file is absent
(matches what appending to a fresh file starts from). -/
def FS.getFile (fs : FS) (p : String) : String :=
  (fs.files.lookup p).getD ""

/-- Whether the file at path p exists at all. -/
def FS.hasFile (fs : FS) (p : String) : Bool :=
  (fs.files.lookup p).isSome

/-- Python open(p, "w") followed by write(c): the file content becomes c. -/
def FS.writeFile (fs : FS) (p c : String) : FS :=
  ⟨fs.dirs, (p, c) :: fs.files⟩

/-- Python open(p, "a") followed by write(c): c is appended to the current
content, the file being created empty first when absent. -/
def FS.appendFile (fs : FS) (p c : String) : FS :=
  fs.writeFile p (fs.getFile p ++ c)

/-- Python os.path.isdir. -/
def FS.isdir (fs : FS) (p : String) : Bool :=
  fs.dirs.contains p

/-- Python os.path.join for the one-separator case used by the code. -/
def pathJoin (a b : String) : String :=
  a ++ "/" ++ b

/-- Dataclass MeasurementInfoParams of analysis.py. -/
structure MeasurementInfoParams where
  dataset_name : String
  metrics_name : String
  lect_a_name : String
  lect_b_name : String
  store_path : String
  deriving Repr, DecidableEq

/-- The tab-delimited line written by save_distances_info:
'\t'.join([dataset_name, metrics_name, lect_a_name, lect_b_name, str(result)])
followed by a newline. -/
def ledgerLine (result : String) (params : MeasurementInfoParams) : String :=
  String.intercalate "\t"
    [params.dataset_name, params.metrics_name,
     params.lect_a_name, params.lect_b_name, result] ++ "\n"

/-- save_distances_info of analysis.py.  The result argument stands for the
Python str(result) rendering of the int|float distance value.  Raises when
store_path is not an existing directory; otherwise appends one
tab-delimited line to store_path/metrics_name.info. -/
def save_distances_info (result : String) (params : MeasurementInfoParams)
    (fs : FS) : Except String FS :=
  if fs.isdir params.store_path = false then
    .error ("Path " ++ params.store_path ++ " does not exist")
  else
    .ok (fs.appendFile
      (pathJoin params.store_path (params.metrics_name ++ ".info"))
      (ledgerLine result params))

/-! ### save_data_for_analysis (analysis.py) -/

/-- Row assembly loop of save_data_for_analysis.  A row is the 4-element
list built by the Python code: first lect's n-gram, second lect's n-gram,
metric label, and the value placed in the Distance column.  The Distance
cell type is a parameter: for identity-map rows it holds the map's opaque
value, for hybrid rows the numeric distance; the Python list is
heterogeneous in exactly this position.  The Python guard
`if data_for_analysis[1]:` is the truthiness of a 2-tuple and always
passes, so it does not appear. -/
def analysisRows {α : Type} (metrics_name : String)
    (identity : List (String × α))
    (forward backward : List (String × List (String × α))) :
    List (String × String × String × α) :=
  (if identity.isEmpty then [] else
    identity.map (fun kv => (kv.1, "id.", metrics_name ++ " - DistRank", kv.2)))
  ++ ((if forward.isEmpty then [] else
    forward.flatMap (fun kv => kv.2.map
      (fun j => (kv.1, j.1, metrics_name ++ " - hybrid", j.2))))
  ++ (if backward.isEmpty then [] else
    backward.flatMap (fun kv => kv.2.map
      (fun j => (j.1, kv.1, metrics_name ++ " - hybrid", j.2)))))

/-- Modelled from the spec: pandas DataFrame(...).to_csv(..., index=False)
is an external collaborator; the spec describes the output as a CSV with
header [lect_a, lect_b, metrics, Distance] and one row per recorded
relation.  render stands for the pandas cell serialisation of the
Distance column. -/
def csvContent {α : Type} (render : α → String)
    (lect_a_name lect_b_name metrics_name : String)
    (rows : List (String × String × String × α)) : String :=
  lect_a_name ++ "," ++ lect_b_name ++ "," ++ metrics_name ++ ",Distance\n"
  ++ String.join (rows.map (fun r =>
      r.1 ++ "," ++ r.2.1 ++ "," ++ r.2.2.1 ++ "," ++ render r.2.2.2 ++ "\n"))

/-- save_data_for_analysis of analysis.py.  data0 is the identity
(DistRank) map, data1 the pair of hybrid maps (forward, backward); Python
dicts preserve insertion order, so each map is an association list.
Raises when store_path is not an existing directory; otherwise writes
(mode w, replacing any prior file) the CSV of the assembled rows to
store_path/metrics_name_lect_a_name_lect_b_name.csv. -/
def save_data_for_analysis {α : Type} (render : α → String)
    (data0 : List (String × α))
    (data1 : List (String × List (String × α)) × List (String × List (String × α)))
    (params : MeasurementInfoParams) (fs : FS) : Except String FS :=
  if fs.isdir params.store_path = false then
    .error ("Path " ++ params.store_path ++ " does not exist")
  else
    .ok (fs.writeFile
      (pathJoin params.store_path
        (params.metrics_name ++ "_" ++ params.lect_a_name ++ "_"
          ++ params.lect_b_name ++ ".csv"))
      (csvContent render params.lect_a_name params.lect_b_name
        params.metrics_name
        (analysisRows params.metrics_name data0 data1.1 data1.2)))

/-! ### create_distance_matrix (clusterisation/utils.py) -/

/-- Python set([a, b]) == set([c, d]) for strings: the unordered pairs
coincide. -/
def samePair (a b c d : String) : Bool :=
  (a == c && b == d) || (a == d && b == c)

/-- The record lookup inside create_distance_matrix:
[d[1] for d in pairwise_distances if set([a, b]) == set([d[0][0], d[0][1]])][0],
with Option head standing for the indexing that raises IndexError on an
empty comprehension. -/
def distLookup (pairwise_distances : List ((String × String) × ℚ))
    (a b : String) : Option ℚ :=
  ((pairwise_distances.filter (fun d => samePair a b d.1.1 d.1.2)).map
    (fun d => d.2)).head?

/-- Sequencing of a list of fallible values: some list exactly when every
element is some, propagating the failure of the Python indexing
otherwise. -/
def optSequence {α : Type} : List (Option α) → Option (List α)
  | [] => some []
  | o :: rest => o.bind (fun a => (optSequence rest).map (fun l => a :: l))

/-- create_distance_matrix of clusterisation/utils.py.  Row i collects, for
each j in range(len(lects)) with j < i, the first matching record's
distance for the unordered pair of lects[i] and lects[j], then appends the
0 diagonal entry.  none models the IndexError raised when a required pair
has no matching record. -/
def create_distance_matrix (pairwise_distances : List ((String × String) × ℚ))
    (lects : List String) : Option (List (List ℚ)) :=
  optSequence ((List.range lects.length).map (fun i =>
    (optSequence (((List.range lects.length).filter (fun j => decide (j < i))).map
      (fun j => distLookup pairwise_distances (lects.getD i "") (lects.getD j "")))).map
      (fun row => row ++ [0])))

/-! ### detect_outgroup (clusterisation/utils.py) -/

/-- A Bio.Phylo clade, reduced to the three fields the code reads: the
optional name, the branch length (carried as its f-string rendering, since
the float formatting is done by the Python runtime), and the child
clades. -/
inductive Clade where
  | mk (name : Option String) (branch_length : String) (clades : List Clade)

/-- Clade name accessor. -/
def Clade.name : Clade → Option String
  | .mk n _ _ => n

/-- Clade branch-length accessor. -/
def Clade.branch_length : Clade → String
  | .mk _ b _ => b

/-- Clade children accessor. -/
def Clade.clades : Clade → List Clade
  | .mk _ _ c => c

/-- A Bio.Phylo tree: the rooted flag and the root clade. -/
structure Tree where
  rooted : Bool
  clade : Clade

/-- The 22 spaces that the source-level backslash line continuation inside
the CORRECT f-string inserts into the written verdict (the indentation of
the continued line becomes part of the string literal). -/
def spacePad : String := "                      "

/-- The verdict text of the CORRECT branch of detect_outgroup:
f"{data_name}\tCORRECT\t{outgroup_len}\t\<newline + 22 spaces>{ingroup_len}",
not newline-terminated. -/
def correctLine (data_name outgroup_len ingroup_len : String) : String :=
  data_name ++ "\tCORRECT\t" ++ outgroup_len ++ "\t" ++ spacePad ++ ingroup_len

/-- The verdict text of the INCORRECT branch of detect_outgroup:
f"{data_name}\tINCORRECT\tNA\tNA", not newline-terminated. -/
def incorrectLine (data_name : String) : String :=
  data_name ++ "\tINCORRECT\tNA\tNA"

/-- detect_outgroup of clusterisation/utils.py.  serialize stands for the
external Bio.Phylo.write newick serialisation of the tree.  Raises when
store_path is not an existing directory, when the tree is unrooted, or
(IndexError) when the root has fewer than two child clades; otherwise
writes (mode w) the verdict to store_path/metrics.info and the serialised
tree to store_path/metrics.newick. -/
def detect_outgroup (serialize : Tree → String) (tree : Tree)
    (outgroup data_name metrics store_path : String) (fs : FS) :
    Except String FS :=
  if fs.isdir store_path = false then
    .error "Directory not exists"
  else if tree.rooted = false then
    .error "Tree is unrooted, not possible to detect outgroup"
  else
    match tree.clade.clades with
    | c0 :: c1 :: _ =>
      let fs1 :=
        if c0.name = some outgroup ∨ c1.name = some outgroup then
          let outgroup_clade := if c0.name = some outgroup then c0 else c1
          let ingroup_clade := if c0.name = some outgroup then c1 else c0
          fs.writeFile (pathJoin store_path (metrics ++ ".info"))
            (correctLine data_name outgroup_clade.branch_length
              ingroup_clade.branch_length)
        else
          fs.writeFile (pathJoin store_path (metrics ++ ".info"))
            (incorrectLine data_name)
      .ok (fs1.writeFile (pathJoin store_path (metrics ++ ".newick"))
        (serialize tree))
    | _ => .error "list index out of range"

/-- The content of the file at path p after a fallible filesystem
operation, none when the operation raised. -/
def infoResult (r : Except String FS) (p : String) : Option String :=
  match r with
  | .ok fs => some (fs.getFile p)
  | .error _ => none

/-! ### Helper lemmas: filesystem -/

theorem FS.getFile_writeFile_self (fs : FS) (p c : String) :
    (fs.writeFile p c).getFile p = c := by
  simp [FS.writeFile, FS.getFile, List.lookup]

theorem FS.getFile_writeFile_ne (fs : FS) (p q c : String) (h : q ≠ p) :
    (fs.writeFile p c).getFile q = fs.getFile q := by
  simp [FS.writeFile, FS.getFile, List.lookup, beq_false_of_ne h]

theorem FS.getFile_appendFile_self (fs : FS) (p c : String) :
    (fs.appendFile p c).getFile p = fs.getFile p ++ c := by
  simp [FS.appendFile, FS.getFile_writeFile_self]

theorem FS.getFile_appendFile_ne (fs : FS) (p q c : String) (h : q ≠ p) :
    (fs.appendFile p c).getFile q = fs.getFile q := by
  simp [FS.appendFile, FS.getFile_writeFile_ne _ _ _ _ h]

theorem FS.isdir_writeFile (fs : FS) (p c q : String) :
    (fs.writeFile p c).isdir q = fs.isdir q := rfl

theorem FS.isdir_appendFile (fs : FS) (p c q : String) :
    (fs.appendFile p c).isdir q = fs.isdir q := rfl

theorem pathJoin_info_ne_newick (sp m : String) :
    pathJoin sp (m ++ ".info") ≠ pathJoin sp (m ++ ".newick") := by
  intro h
  have hlen := congrArg String.length h
  simp [pathJoin, String.length_append] at hlen
  exact absurd hlen (by decide)

/-! ### Helper lemmas: optSequence, ranges, lookups -/

theorem samePair_iff (a b c d : String) :
    samePair a b c d = true ↔ ({a, b} : Set String) = {c, d} := by
  rw [Set.pair_eq_pair_iff]
  simp [samePair]

theorem optSequence_map_eq_none {α β : Type} (f : α → Option β) {l : List α}
    {a : α} (ha : a ∈ l) (hn : f a = none) : optSequence (l.map f) = none := by
  induction l with
  | nil => cases ha
  | cons x xs ih =>
    rcases List.mem_cons.mp ha with h | h
    · subst h
      simp [optSequence, hn]
    · rw [List.map_cons]
      show optSequence (f x :: xs.map f) = none
      rw [optSequence, ih h]
      cases f x <;> rfl


theorem optSequence_map_eq_some {α β : Type} (f : α → Option β) (dA : α)
    (dB : β) (l : List α) (h : ∀ a ∈ l, ∃ b, f a = some b) :
    ∃ l₂, optSequence (l.map f) = some l₂ ∧ l₂.length = l.length ∧
      ∀ k, k < l.length → f (l.getD k dA) = some (l₂.getD k dB) := by
  induction l with
  | nil => exact ⟨[], rfl, rfl, fun k hk => absurd hk (by simp)⟩
  | cons x xs ih =>
    obtain ⟨b, hb⟩ := h x (List.mem_cons_self x xs)
    obtain ⟨l₂, hl₂, hlen, hget⟩ := ih (fun a ha => h a (List.mem_cons_of_mem x ha))
    refine ⟨b :: l₂, ?_, by simp [hlen], ?_⟩
    · rw [List.map_cons]
      show optSequence (f x :: xs.map f) = some (b :: l₂)
      rw [optSequence, hb, hl₂]
      rfl
    · intro k hk
      cases k with
      | zero => simpa using hb
      | succ k₂ => simpa using hget k₂ (by simpa using hk)

theorem range_getD {n k : Nat} (h : k < n) : (List.range n).getD k 0 = k := by
  rw [List.getD_eq_getElem?_getD, List.getElem?_range h]
  rfl

theorem filter_range_lt (i n : Nat) (h : i ≤ n) :
    (List.range n).filter (fun j => decide (j < i)) = List.range i := by
  induction n with
  | zero =>
    have h0 : i = 0 := Nat.le_zero.mp h
    subst h0
    rfl
  | succ n ih =>
    rcases Nat.lt_or_ge n i with hni | hni
    · have hin : i = n + 1 := Nat.le_antisymm h hni
      subst hin
      apply List.filter_eq_self.mpr
      intro a ha
      exact decide_eq_true (List.mem_range.mp ha)
    · rw [List.range_succ, List.filter_append, ih hni]
      simp [Nat.not_lt.mpr hni]

theorem create_distance_matrix_spec (pd : List ((String × String) × ℚ))
    (lects : List String)
    (h : ∀ i, i < lects.length → ∀ j, j < i →
      ∃ q, distLookup pd (lects.getD i "") (lects.getD j "") = some q) :
    ∃ M, create_distance_matrix pd lects = some M ∧
      M.length = lects.length ∧
      ∀ i, i < lects.length →
        (M.getD i []).length = i + 1 ∧
        (∀ j, j < i →
          distLookup pd (lects.getD i "") (lects.getD j "") =
            some ((M.getD i []).getD j 0)) ∧
        (M.getD i []).getD i 0 = 0 := by
  have hrow : ∀ i, i < lects.length → ∃ r : List ℚ,
      optSequence (((List.range lects.length).filter (fun j => decide (j < i))).map
        (fun j => distLookup pd (lects.getD i "") (lects.getD j ""))) = some r ∧
      r.length = i ∧
      ∀ j, j < i →
        distLookup pd (lects.getD i "") (lects.getD j "") = some (r.getD j 0) := by
    intro i hi
    rw [filter_range_lt i lects.length (Nat.le_of_lt hi)]
    obtain ⟨r, hr, hlen, hget⟩ := optSequence_map_eq_some
      (fun j => distLookup pd (lects.getD i "") (lects.getD j "")) 0 0
      (List.range i)
      (fun j hj => h i hi j (List.mem_range.mp hj))
    refine ⟨r, hr, by simpa using hlen, fun j hj => ?_⟩
    have hg := hget j (by simpa using hj)
    rwa [range_getD hj] at hg
  obtain ⟨M, hM, hMlen, hMget⟩ := optSequence_map_eq_some
    (fun i => (optSequence (((List.range lects.length).filter (fun j => decide (j < i))).map
      (fun j => distLookup pd (lects.getD i "") (lects.getD j "")))).map
      (fun row => row ++ [0])) 0 ([] : List ℚ)
    (List.range lects.length)
    (fun i hi => by
      obtain ⟨r, hr, _, _⟩ := hrow i (List.mem_range.mp hi)
      exact ⟨r ++ [0], by dsimp only; rw [hr]; rfl⟩)
  refine ⟨M, hM, by simpa using hMlen, ?_⟩
  intro i hi
  have hFi := hMget i (by simpa using hi)
  rw [range_getD hi] at hFi
  obtain ⟨r, hr, hrlen, hrget⟩ := hrow i hi
  rw [hr] at hFi
  have hMi : M.getD i [] = r ++ [0] := by simpa using hFi.symm
  rw [hMi]
  refine ⟨by simp [hrlen], fun j hj => ?_, ?_⟩
  · rw [List.getD_append _ _ _ _ (by rw [hrlen]; exact hj)]
    exact hrget j hj
  · rw [List.getD_append_right _ _ _ _ (by rw [hrlen]), hrlen, Nat.sub_self]
    rfl

theorem distLookup_isSome {pd : List ((String × String) × ℚ)} {a b : String}
    (h : ∃ d ∈ pd, samePair a b d.1.1 d.1.2 = true) :
    ∃ q, distLookup pd a b = some q := by
  obtain ⟨d, hd, hmatch⟩ := h
  have hmem : d ∈ pd.filter (fun d => samePair a b d.1.1 d.1.2) :=
    List.mem_filter.mpr ⟨hd, hmatch⟩
  unfold distLookup
  cases hf : pd.filter (fun d => samePair a b d.1.1 d.1.2) with
  | nil => rw [hf] at hmem; cases hmem
  | cons x xs => exact ⟨x.2, rfl⟩

theorem distLookup_eq_none {pd : List ((String × String) × ℚ)} {a b : String}
    (h : ∀ d ∈ pd, samePair a b d.1.1 d.1.2 = false) :
    distLookup pd a b = none := by
  unfold distLookup
  rw [List.filter_eq_nil_iff.mpr (fun d hd => by simp [h d hd])]
  rfl

/-! ### Helper lemmas: runs of the writing operations -/

theorem save_distances_info_run (result : String)
    (params : MeasurementInfoParams) (fs : FS)
    (hdir : fs.isdir params.store_path = true) :
    save_distances_info result params fs =
      .ok (fs.appendFile
        (pathJoin params.store_path (params.metrics_name ++ ".info"))
        (ledgerLine result params)) := by
  simp [save_distances_info, hdir]

theorem detect_outgroup_run (serialize : Tree → String)
    (rn : Option String) (rb : String) (c0 c1 : Clade) (rest : List Clade)
    (og dn m sp : String) (fs : FS) (hdir : fs.isdir sp = true) :
    detect_outgroup serialize ⟨true, .mk rn rb (c0 :: c1 :: rest)⟩
      og dn m sp fs =
    .ok ((if c0.name = some og ∨ c1.name = some og then
        fs.writeFile (pathJoin sp (m ++ ".info"))
          (correctLine dn (if c0.name = some og then c0 else c1).branch_length
            (if c0.name = some og then c1 else c0).branch_length)
      else
        fs.writeFile (pathJoin sp (m ++ ".info")) (incorrectLine dn)).writeFile
      (pathJoin sp (m ++ ".newick"))
      (serialize ⟨true, .mk rn rb (c0 :: c1 :: rest)⟩)) := by
  unfold detect_outgroup
  rw [if_neg (by simp [hdir])]
  rw [if_neg (by simp)]
  rfl

theorem detect_outgroup_info (serialize : Tree → String)
    (rn : Option String) (rb : String) (c0 c1 : Clade) (rest : List Clade)
    (og dn m sp : String) (fs : FS) (hdir : fs.isdir sp = true) :
    infoResult (detect_outgroup serialize ⟨true, .mk rn rb (c0 :: c1 :: rest)⟩
        og dn m sp fs) (pathJoin sp (m ++ ".info")) =
    some (if c0.name = some og ∨ c1.name = some og then
        correctLine dn (if c0.name = some og then c0 else c1).branch_length
          (if c0.name = some og then c1 else c0).branch_length
      else incorrectLine dn) := by
  rw [detect_outgroup_run serialize rn rb c0 c1 rest og dn m sp fs hdir]
  simp only [infoResult]
  rw [FS.getFile_writeFile_ne _ _ _ _ (pathJoin_info_ne_newick sp m)]
  by_cases hc : c0.name = some og ∨ c1.name = some og
  · rw [if_pos hc, if_pos hc, FS.getFile_writeFile_self]
  · rw [if_neg hc, if_neg hc, FS.getFile_writeFile_self]

theorem distLookup_perm (pd pd₂ : List ((String × String) × ℚ)) (a b : String)
    (hperm : pd₂.Perm pd)
    (hone : (pd.filter (fun d => samePair a b d.1.1 d.1.2)).length = 1) :
    distLookup pd₂ a b = distLookup pd a b := by
  obtain ⟨x, hx⟩ := List.length_eq_one.mp hone
  have hp : (pd₂.filter (fun d => samePair a b d.1.1 d.1.2)).Perm
      (pd.filter (fun d => samePair a b d.1.1 d.1.2)) := hperm.filter _
  rw [hx] at hp
  have h₂ : pd₂.filter (fun d => samePair a b d.1.1 d.1.2) = [x] :=
    List.perm_singleton.mp hp
  unfold distLookup
  rw [h₂, hx]

theorem create_distance_matrix_perm (pd pd₂ : List ((String × String) × ℚ))
    (lects : List String) (hperm : pd₂.Perm pd)
    (hone : ∀ i, i < lects.length → ∀ j, j < i →
      (pd.filter (fun d => samePair (lects.getD i "") (lects.getD j "")
        d.1.1 d.1.2)).length = 1) :
    create_distance_matrix pd₂ lects = create_distance_matrix pd lects := by
  unfold create_distance_matrix
  congr 1
  apply List.map_congr_left
  intro i hi
  have hi₂ := List.mem_range.mp hi
  congr 1
  congr 1
  apply List.map_congr_left
  intro j hj
  have hjlt : j < i := by simpa using (List.mem_filter.mp hj).2
  exact distLookup_perm pd pd₂ _ _ hperm (hone i hi₂ j hjlt)

/-! ### Claims about create_distance_matrix -/

/-- C1: for every list of distinct lect names and every pairwise-distance
record list containing a record for each required unordered pair,
create_distance_matrix returns a matrix with one row per lect, where row
i has exactly i + 1 entries, entry j (j < i) is the distance of the
record matching the unordered pair of lects i and j (first match in
input order), and the last entry of row i is 0; on lects Croatian,
Slovak, Slovenian with the example distances it returns the rows
[0], [0.4, 0], [0.5, 0.3, 0]. -/
theorem claim_C1 (pd : List ((String × String) × ℚ))
    (lects : List String) (_hnodup : lects.Nodup)
    (hfull : ∀ i, i < lects.length → ∀ j, j < i →
      ∃ d ∈ pd, samePair (lects.getD i "") (lects.getD j "") d.1.1 d.1.2 = true) :
    (∃ M, create_distance_matrix pd lects = some M ∧
      M.length = lects.length ∧
      ∀ i, i < lects.length →
        (M.getD i []).length = i + 1 ∧
        (∀ j, j < i →
          distLookup pd (lects.getD i "") (lects.getD j "") =
            some ((M.getD i []).getD j 0)) ∧
        (M.getD i []).getD i 0 = 0) ∧
    create_distance_matrix
      [(("Croatian", "Slovak"), 0.4), (("Croatian", "Slovenian"), 0.5),
       (("Slovak", "Slovenian"), 0.3)]
      ["Croatian", "Slovak", "Slovenian"] =
      some [[0], [0.4, 0], [0.5, 0.3, 0]] :=
  ⟨create_distance_matrix_spec pd lects
      (fun i hi j hj => distLookup_isSome (hfull i hi j hj)),
    by with_unfolding_all decide⟩

/-- Witness for C1 at the Croatian/Slovak/Slovenian example. -/
theorem claim_C1_witness :
    (∃ M, create_distance_matrix
        [(("Croatian", "Slovak"), 0.4), (("Croatian", "Slovenian"), 0.5),
         (("Slovak", "Slovenian"), 0.3)]
        ["Croatian", "Slovak", "Slovenian"] = some M ∧
      M.length = (["Croatian", "Slovak", "Slovenian"] : List String).length ∧
      ∀ i, i < (["Croatian", "Slovak", "Slovenian"] : List String).length →
        (M.getD i []).length = i + 1 ∧
        (∀ j, j < i →
          distLookup
            [(("Croatian", "Slovak"), 0.4), (("Croatian", "Slovenian"), 0.5),
             (("Slovak", "Slovenian"), 0.3)]
            ((["Croatian", "Slovak", "Slovenian"] : List String).getD i "")
            ((["Croatian", "Slovak", "Slovenian"] : List String).getD j "") =
            some ((M.getD i []).getD j 0)) ∧
        (M.getD i []).getD i 0 = 0) ∧
    create_distance_matrix
      [(("Croatian", "Slovak"), 0.4), (("Croatian", "Slovenian"), 0.5),
       (("Slovak", "Slovenian"), 0.3)]
      ["Croatian", "Slovak", "Slovenian"] =
      some [[0], [0.4, 0], [0.5, 0.3, 0]] :=
  claim_C1
    [(("Croatian", "Slovak"), 0.4), (("Croatian", "Slovenian"), 0.5),
     (("Slovak", "Slovenian"), 0.3)]
    ["Croatian", "Slovak", "Slovenian"] (by decide) (by decide)

/-- C5: when every required unordered pair is matched by exactly one
record, create_distance_matrix returns the same matrix for every
permutation of the record list. -/
theorem claim_C5 (pd pd₂ : List ((String × String) × ℚ))
    (lects : List String)
    (hone : ∀ i, i < lects.length → ∀ j, j < i →
      (pd.filter (fun d => samePair (lects.getD i "") (lects.getD j "")
        d.1.1 d.1.2)).length = 1)
    (hperm : pd₂.Perm pd) :
    create_distance_matrix pd₂ lects = create_distance_matrix pd lects :=
  create_distance_matrix_perm pd pd₂ lects hperm hone

/-- Witness for C5: the reversed example record list yields the same
matrix. -/
theorem claim_C5_witness :
    create_distance_matrix
      [(("Slovak", "Slovenian"), 0.3), (("Croatian", "Slovenian"), 0.5),
       (("Croatian", "Slovak"), 0.4)]
      ["Croatian", "Slovak", "Slovenian"] =
    create_distance_matrix
      [(("Croatian", "Slovak"), 0.4), (("Croatian", "Slovenian"), 0.5),
       (("Slovak", "Slovenian"), 0.3)]
      ["Croatian", "Slovak", "Slovenian"] :=
  claim_C5
    [(("Croatian", "Slovak"), 0.4), (("Croatian", "Slovenian"), 0.5),
     (("Slovak", "Slovenian"), 0.3)]
    [(("Slovak", "Slovenian"), 0.3), (("Croatian", "Slovenian"), 0.5),
     (("Croatian", "Slovak"), 0.4)]
    ["Croatian", "Slovak", "Slovenian"] (by decide)
    (by with_unfolding_all decide)

/-- C6: when two distinct lects at positions i and j (j < i) have no
matching record, create_distance_matrix aborts with the failure value
rather than placing a placeholder in the matrix. -/
theorem claim_C6 (pd : List ((String × String) × ℚ))
    (lects : List String) (i j : Nat) (hi : i < lects.length) (hj : j < i)
    (_hdistinct : lects.getD i "" ≠ lects.getD j "")
    (hmiss : ∀ d ∈ pd,
      samePair (lects.getD i "") (lects.getD j "") d.1.1 d.1.2 = false) :
    create_distance_matrix pd lects = none := by
  have hinner : optSequence
      (((List.range lects.length).filter (fun k => decide (k < i))).map
        (fun k => distLookup pd (lects.getD i "") (lects.getD k ""))) = none := by
    apply optSequence_map_eq_none _
      (List.mem_filter.mpr
        ⟨List.mem_range.mpr (Nat.lt_trans hj hi), by simpa using hj⟩)
      (distLookup_eq_none hmiss)
  unfold create_distance_matrix
  apply optSequence_map_eq_none _ (List.mem_range.mpr hi)
  dsimp only
  rw [hinner]
  rfl

/-- Witness for C6: lects A and B with a record list that matches only
the pair A, C. -/
theorem claim_C6_witness :
    1 < (["A", "B"] : List String).length ∧ 0 < 1 ∧
    (["A", "B"] : List String).getD 1 "" ≠ (["A", "B"] : List String).getD 0 "" ∧
    (∀ d ∈ [((("A", "C") : String × String), (0.1 : ℚ))],
      samePair ((["A", "B"] : List String).getD 1 "")
        ((["A", "B"] : List String).getD 0 "") d.1.1 d.1.2 = false) ∧
    create_distance_matrix [((("A", "C") : String × String), (0.1 : ℚ))]
      ["A", "B"] = none :=
  ⟨by decide, by decide, by decide, by decide,
    claim_C6 [((("A", "C") : String × String), (0.1 : ℚ))] ["A", "B"] 1 0
      (by decide) (by decide) (by decide) (by decide)⟩

/-! ### Claims about detect_outgroup -/

/-- C2: on a rooted tree with two direct root children, when the outgroup
name equals one of the two children's names, detect_outgroup writes a
CORRECT verdict recording that child's branch length as the outgroup
branch length and the other child's branch length as the ingroup branch
length; otherwise it writes an INCORRECT verdict with both lengths
recorded as NA. -/
theorem claim_C2 (serialize : Tree → String) (rn : Option String)
    (rb : String) (c0 c1 : Clade) (og dn m sp : String) (fs : FS)
    (hdir : fs.isdir sp = true) :
    (c0.name = some og →
      infoResult (detect_outgroup serialize ⟨true, .mk rn rb [c0, c1]⟩
          og dn m sp fs) (pathJoin sp (m ++ ".info")) =
        some (correctLine dn c0.branch_length c1.branch_length)) ∧
    (c0.name ≠ some og → c1.name = some og →
      infoResult (detect_outgroup serialize ⟨true, .mk rn rb [c0, c1]⟩
          og dn m sp fs) (pathJoin sp (m ++ ".info")) =
        some (correctLine dn c1.branch_length c0.branch_length)) ∧
    (c0.name ≠ some og → c1.name ≠ some og →
      infoResult (detect_outgroup serialize ⟨true, .mk rn rb [c0, c1]⟩
          og dn m sp fs) (pathJoin sp (m ++ ".info")) =
        some (incorrectLine dn)) := by
  refine ⟨fun h0 => ?_, fun h0 h1 => ?_, fun h0 h1 => ?_⟩
  · rw [detect_outgroup_info serialize rn rb c0 c1 [] og dn m sp fs hdir]
    rw [if_pos (Or.inl h0), if_pos h0, if_pos h0]
  · rw [detect_outgroup_info serialize rn rb c0 c1 [] og dn m sp fs hdir]
    rw [if_pos (Or.inr h1), if_neg h0, if_neg h0]
  · rw [detect_outgroup_info serialize rn rb c0 c1 [] og dn m sp fs hdir]
    rw [if_neg (by rintro (h | h); exacts [h0 h, h1 h])]

/-- Witness for C2 on the Croatian/rest tree of the spec's example. -/
theorem claim_C2_witness :
    ((Clade.mk (some "Croatian") "0.1" []).name = some "Croatian" →
      infoResult (detect_outgroup (fun _ => "")
          ⟨true, .mk none ""
            [.mk (some "Croatian") "0.1" [], .mk (some "rest") "0.2" []]⟩
          "Croatian" "ds" "m" "out" ⟨["out"], []⟩)
        (pathJoin "out" ("m" ++ ".info")) =
        some (correctLine "ds"
          (Clade.mk (some "Croatian") "0.1" []).branch_length
          (Clade.mk (some "rest") "0.2" []).branch_length)) ∧
    ((Clade.mk (some "Croatian") "0.1" []).name ≠ some "Croatian" →
      (Clade.mk (some "rest") "0.2" []).name = some "Croatian" →
      infoResult (detect_outgroup (fun _ => "")
          ⟨true, .mk none ""
            [.mk (some "Croatian") "0.1" [], .mk (some "rest") "0.2" []]⟩
          "Croatian" "ds" "m" "out" ⟨["out"], []⟩)
        (pathJoin "out" ("m" ++ ".info")) =
        some (correctLine "ds"
          (Clade.mk (some "rest") "0.2" []).branch_length
          (Clade.mk (some "Croatian") "0.1" []).branch_length)) ∧
    ((Clade.mk (some "Croatian") "0.1" []).name ≠ some "Croatian" →
      (Clade.mk (some "rest") "0.2" []).name ≠ some "Croatian" →
      infoResult (detect_outgroup (fun _ => "")
          ⟨true, .mk none ""
            [.mk (some "Croatian") "0.1" [], .mk (some "rest") "0.2" []]⟩
          "Croatian" "ds" "m" "out" ⟨["out"], []⟩)
        (pathJoin "out" ("m" ++ ".info")) =
        some (incorrectLine "ds")) :=
  claim_C2 (fun _ => "") none "" (.mk (some "Croatian") "0.1" [])
    (.mk (some "rest") "0.2" []) "Croatian" "ds" "m" "out"
    ⟨["out"], []⟩ (by decide)

/-- C10: on a rooted tree whose root has more than two direct children,
detect_outgroup inspects only the first two child names; when the
outgroup name appears only as the third or a later child (any child
after the first two), the verdict written is INCORRECT with both branch
lengths NA. -/
theorem claim_C10 (serialize : Tree → String) (rn : Option String)
    (rb : String) (c0 c1 : Clade) (rest : List Clade)
    (og dn m sp : String) (fs : FS) (hdir : fs.isdir sp = true)
    (h0 : c0.name ≠ some og) (h1 : c1.name ≠ some og)
    (_h2 : ∃ c ∈ rest, c.name = some og) :
    infoResult (detect_outgroup serialize
        ⟨true, .mk rn rb (c0 :: c1 :: rest)⟩ og dn m sp fs)
      (pathJoin sp (m ++ ".info")) = some (incorrectLine dn) := by
  obtain ⟨c, hc, -⟩ := _h2
  cases rest with
  | nil => cases hc
  | cons c2 rest₂ =>
    rw [detect_outgroup_info serialize rn rb c0 c1 (c2 :: rest₂)
      og dn m sp fs hdir]
    rw [if_neg (by rintro (h | h); exacts [h0 h, h1 h])]

/-- Witness for C10: the outgroup is the fourth child of the root. -/
theorem claim_C10_witness :
    infoResult (detect_outgroup (fun _ => "")
        ⟨true, .mk none ""
          [.mk (some "Croatian") "0.1" [], .mk (some "Slovak") "0.2" [],
           .mk (some "Slovenian") "0.3" [], .mk (some "Kashubian") "0.4" []]⟩
        "Kashubian" "ds" "m" "out" ⟨["out"], []⟩)
      (pathJoin "out" ("m" ++ ".info")) = some (incorrectLine "ds") :=
  claim_C10 (fun _ => "") none "" (.mk (some "Croatian") "0.1" [])
    (.mk (some "Slovak") "0.2" [])
    [.mk (some "Slovenian") "0.3" [], .mk (some "Kashubian") "0.4" []]
    "Kashubian" "ds" "m" "out" ⟨["out"], []⟩
    (by decide) (by decide) (by decide)
    ⟨.mk (some "Kashubian") "0.4" [],
      List.mem_cons_of_mem _ (List.mem_cons_self _ _), rfl⟩

/-- C9 counterexample: the verdict written for a CORRECT outgroup
detection is not a newline-terminated line of four tab-separated fields
with nothing else between them: the written string carries 22 space
characters between the third tab and the ingroup length (the f-string
line continuation of the source) and no trailing newline. -/
theorem claim_C9_counterexample :
    infoResult (detect_outgroup (fun _ => "")
        ⟨true, .mk none ""
          [.mk (some "Croatian") "0.1" [], .mk (some "rest") "0.2" []]⟩
        "Croatian" "ds" "m" "out" ⟨["out"], []⟩)
      (pathJoin "out" "m.info") =
      some "ds\tCORRECT\t0.1\t                      0.2" ∧
    ("ds\tCORRECT\t0.1\t                      0.2").endsWith "\n" = false ∧
    ' ' ∈ ("ds\tCORRECT\t0.1\t                      0.2").toList :=
  ⟨by decide, by with_unfolding_all decide, by decide⟩

/-- C9 amended: on a successful detect_outgroup call the verdict written
to the .info file is the dataset name, the CORRECT or INCORRECT status,
and the two branch-length fields (or NA, NA), separated by tabs, except
that in the CORRECT case 22 space characters precede the fourth field
and in neither case is a trailing newline written. -/
theorem claim_C9_amended (serialize : Tree → String) (rn : Option String)
    (rb : String) (c0 c1 : Clade) (rest : List Clade)
    (og dn m sp : String) (fs : FS) (hdir : fs.isdir sp = true) :
    infoResult (detect_outgroup serialize
        ⟨true, .mk rn rb (c0 :: c1 :: rest)⟩ og dn m sp fs)
      (pathJoin sp (m ++ ".info")) =
    some (if c0.name = some og ∨ c1.name = some og then
        dn ++ "\t" ++ "CORRECT" ++ "\t"
          ++ (if c0.name = some og then c0 else c1).branch_length
          ++ "\t" ++ "                      "
          ++ (if c0.name = some og then c1 else c0).branch_length
      else dn ++ "\t" ++ "INCORRECT" ++ "\t" ++ "NA" ++ "\t" ++ "NA") := by
  rw [detect_outgroup_info serialize rn rb c0 c1 rest og dn m sp fs hdir]
  by_cases hc : c0.name = some og ∨ c1.name = some og
  · rw [if_pos hc, if_pos hc]
    have h1 : ("\tCORRECT\t" : String) = "\t" ++ "CORRECT" ++ "\t" := by
      with_unfolding_all rfl
    simp only [correctLine, spacePad, h1, String.append_assoc]
  · rw [if_neg hc, if_neg hc]
    have h2 : ("\tINCORRECT\tNA\tNA" : String) =
        "\t" ++ "INCORRECT" ++ "\t" ++ "NA" ++ "\t" ++ "NA" := by
      with_unfolding_all rfl
    simp only [incorrectLine, h2, String.append_assoc]

/-- Witness for the amended C9 on the Croatian/rest example tree. -/
theorem claim_C9_amended_witness :
    infoResult (detect_outgroup (fun _ => "")
        ⟨true, .mk none ""
          [.mk (some "Croatian") "0.1" [], .mk (some "rest") "0.2" []]⟩
        "Croatian" "ds" "m" "out" ⟨["out"], []⟩)
      (pathJoin "out" ("m" ++ ".info")) =
    some (if (Clade.mk (some "Croatian") "0.1" []).name = some "Croatian"
        ∨ (Clade.mk (some "rest") "0.2" []).name = some "Croatian" then
        "ds" ++ "\t" ++ "CORRECT" ++ "\t"
          ++ (if (Clade.mk (some "Croatian") "0.1" []).name = some "Croatian"
              then Clade.mk (some "Croatian") "0.1" []
              else Clade.mk (some "rest") "0.2" []).branch_length
          ++ "\t" ++ "                      "
          ++ (if (Clade.mk (some "Croatian") "0.1" []).name = some "Croatian"
              then Clade.mk (some "rest") "0.2" []
              else Clade.mk (some "Croatian") "0.1" []).branch_length
      else "ds" ++ "\t" ++ "INCORRECT" ++ "\t" ++ "NA" ++ "\t" ++ "NA") :=
  claim_C9_amended (fun _ => "") none "" (.mk (some "Croatian") "0.1" [])
    (.mk (some "rest") "0.2" []) [] "Croatian" "ds" "m" "out"
    ⟨["out"], []⟩ (by decide)

/-- C8 counterexample: detect_outgroup does not open the .info file in
append mode; on a pre-existing file it truncates, so the previously
present line is gone after a successful call. -/
theorem claim_C8_counterexample :
    FS.getFile ⟨["out"], [("out/m.info", "prev\tline\n")]⟩ "out/m.info" =
      "prev\tline\n" ∧
    "prev\tline" ∈ ("prev\tline\n".splitOn "\n") ∧
    infoResult (detect_outgroup (fun _ => "")
        ⟨true, .mk none ""
          [.mk (some "Croatian") "0.1" [], .mk (some "rest") "0.2" []]⟩
        "Slovak" "ds" "m" "out" ⟨["out"], [("out/m.info", "prev\tline\n")]⟩)
      (pathJoin "out" "m.info") = some "ds\tINCORRECT\tNA\tNA" ∧
    "prev\tline" ∉ ("ds\tINCORRECT\tNA\tNA".splitOn "\n") :=
  ⟨rfl, by with_unfolding_all decide, by decide,
    by with_unfolding_all decide⟩

/-- C8 amended: only the ledger save_distances_info opens the per-metric
.info file in append mode, so its previous content is preserved and the
new line appended; detect_outgroup opens the same file in write mode, so
after a successful call the file holds exactly the new verdict,
whatever its previous content was. -/
theorem claim_C8_amended (result : String) (params : MeasurementInfoParams)
    (serialize : Tree → String) (rn : Option String) (rb : String)
    (c0 c1 : Clade) (rest : List Clade) (og dn m sp : String) (fs : FS) :
    (fs.isdir params.store_path = true →
      ∃ fs₂, save_distances_info result params fs = .ok fs₂ ∧
        fs₂.getFile (pathJoin params.store_path (params.metrics_name ++ ".info")) =
          fs.getFile (pathJoin params.store_path (params.metrics_name ++ ".info"))
            ++ ledgerLine result params) ∧
    (fs.isdir sp = true →
      infoResult (detect_outgroup serialize
          ⟨true, .mk rn rb (c0 :: c1 :: rest)⟩ og dn m sp fs)
        (pathJoin sp (m ++ ".info")) =
      some (if c0.name = some og ∨ c1.name = some og then
          correctLine dn (if c0.name = some og then c0 else c1).branch_length
            (if c0.name = some og then c1 else c0).branch_length
        else incorrectLine dn)) := by
  constructor
  · intro hdir
    rw [save_distances_info_run result params fs hdir]
    exact ⟨_, rfl, FS.getFile_appendFile_self _ _ _⟩
  · intro hdir
    exact detect_outgroup_info serialize rn rb c0 c1 rest og dn m sp fs hdir

/-- Witness for the amended C8: one appending ledger call and one
truncating detect_outgroup call on concrete inputs. -/
theorem claim_C8_amended_witness :
    ((⟨["out"], [("out/m.info", "prev\tline\n")]⟩ : FS).isdir "out" = true →
      ∃ fs₂, save_distances_info "0.4" ⟨"ds", "m", "A", "B", "out"⟩
          ⟨["out"], [("out/m.info", "prev\tline\n")]⟩ = .ok fs₂ ∧
        fs₂.getFile (pathJoin "out" ("m" ++ ".info")) =
          (⟨["out"], [("out/m.info", "prev\tline\n")]⟩ : FS).getFile
              (pathJoin "out" ("m" ++ ".info"))
            ++ ledgerLine "0.4" ⟨"ds", "m", "A", "B", "out"⟩) ∧
    ((⟨["out"], [("out/m.info", "prev\tline\n")]⟩ : FS).isdir "out" = true →
      infoResult (detect_outgroup (fun _ => "")
          ⟨true, .mk none ""
            [.mk (some "Croatian") "0.1" [], .mk (some "rest") "0.2" []]⟩
          "Slovak" "ds" "m" "out" ⟨["out"], [("out/m.info", "prev\tline\n")]⟩)
        (pathJoin "out" ("m" ++ ".info")) =
      some (if (Clade.mk (some "Croatian") "0.1" []).name = some "Slovak"
            ∨ (Clade.mk (some "rest") "0.2" []).name = some "Slovak" then
          correctLine "ds"
            (if (Clade.mk (some "Croatian") "0.1" []).name = some "Slovak"
              then Clade.mk (some "Croatian") "0.1" []
              else Clade.mk (some "rest") "0.2" []).branch_length
            (if (Clade.mk (some "Croatian") "0.1" []).name = some "Slovak"
              then Clade.mk (some "rest") "0.2" []
              else Clade.mk (some "Croatian") "0.1" []).branch_length
        else incorrectLine "ds")) :=
  claim_C8_amended "0.4" ⟨"ds", "m", "A", "B", "out"⟩ (fun _ => "")
    none "" (.mk (some "Croatian") "0.1" []) (.mk (some "rest") "0.2" []) []
    "Slovak" "ds" "m" "out" ⟨["out"], [("out/m.info", "prev\tline\n")]⟩

/-! ### Claims about the ledger and the error paths -/

/-- C4: with an existing store_path directory, save_distances_info
appends exactly one tab-delimited line (dataset, metric, lect a, lect b,
distance) to store_path/metrics_name.info, creating the file when absent,
leaving every other file and the previous content of that file
unchanged; a second call with the same metric and directory appends its
line after the first, in call order. -/
theorem claim_C4 (result : String) (params : MeasurementInfoParams)
    (fs : FS) (hdir : fs.isdir params.store_path = true) :
    ∃ fs₂, save_distances_info result params fs = .ok fs₂ ∧
      fs₂.getFile (pathJoin params.store_path (params.metrics_name ++ ".info")) =
        fs.getFile (pathJoin params.store_path (params.metrics_name ++ ".info"))
          ++ ledgerLine result params ∧
      (∀ q, q ≠ pathJoin params.store_path (params.metrics_name ++ ".info") →
        fs₂.getFile q = fs.getFile q) ∧
      ∀ result₂ (params₂ : MeasurementInfoParams),
        params₂.store_path = params.store_path →
        params₂.metrics_name = params.metrics_name →
        ∃ fs₃, save_distances_info result₂ params₂ fs₂ = .ok fs₃ ∧
          fs₃.getFile (pathJoin params.store_path (params.metrics_name ++ ".info")) =
            fs.getFile (pathJoin params.store_path (params.metrics_name ++ ".info"))
              ++ ledgerLine result params ++ ledgerLine result₂ params₂ := by
  rw [save_distances_info_run result params fs hdir]
  refine ⟨_, rfl, FS.getFile_appendFile_self _ _ _,
    fun q hq => FS.getFile_appendFile_ne _ _ _ _ hq, ?_⟩
  intro result₂ params₂ hsp hmn
  have hdir₂ : (fs.appendFile
      (pathJoin params.store_path (params.metrics_name ++ ".info"))
      (ledgerLine result params)).isdir params₂.store_path = true := by
    rw [FS.isdir_appendFile, hsp]
    exact hdir
  rw [save_distances_info_run result₂ params₂ _ hdir₂]
  refine ⟨_, rfl, ?_⟩
  rw [hsp, hmn, FS.getFile_appendFile_self, FS.getFile_appendFile_self]

/-- Witness for C4 on a concrete filesystem with a pre-existing ledger
file. -/
theorem claim_C4_witness :
    ∃ fs₂, save_distances_info "0.4" ⟨"ds", "m", "A", "B", "out"⟩
        ⟨["out"], [("out/m.info", "prev\n")]⟩ = .ok fs₂ ∧
      fs₂.getFile (pathJoin "out" ("m" ++ ".info")) =
        (⟨["out"], [("out/m.info", "prev\n")]⟩ : FS).getFile
            (pathJoin "out" ("m" ++ ".info"))
          ++ ledgerLine "0.4" ⟨"ds", "m", "A", "B", "out"⟩ ∧
      (∀ q, q ≠ pathJoin "out" ("m" ++ ".info") →
        fs₂.getFile q =
          (⟨["out"], [("out/m.info", "prev\n")]⟩ : FS).getFile q) ∧
      ∀ result₂ (params₂ : MeasurementInfoParams),
        params₂.store_path = "out" →
        params₂.metrics_name = "m" →
        ∃ fs₃, save_distances_info result₂ params₂ fs₂ = .ok fs₃ ∧
          fs₃.getFile (pathJoin "out" ("m" ++ ".info")) =
            (⟨["out"], [("out/m.info", "prev\n")]⟩ : FS).getFile
                (pathJoin "out" ("m" ++ ".info"))
              ++ ledgerLine "0.4" ⟨"ds", "m", "A", "B", "out"⟩
              ++ ledgerLine result₂ params₂ :=
  claim_C4 "0.4" ⟨"ds", "m", "A", "B", "out"⟩
    ⟨["out"], [("out/m.info", "prev\n")]⟩ (by decide)

/-- C7: each of save_distances_info, save_data_for_analysis and
detect_outgroup raises an error, producing no filesystem, when
store_path is not an existing directory; detect_outgroup additionally
raises when the tree's rooted flag is false. -/
theorem claim_C7 {α : Type} (render : α → String)
    (data0 : List (String × α))
    (data1 : List (String × List (String × α))
      × List (String × List (String × α)))
    (result : String) (params : MeasurementInfoParams)
    (serialize : Tree → String) (tree : Tree) (og dn m sp : String)
    (fs : FS) :
    (fs.isdir params.store_path = false →
      (∃ e, save_distances_info result params fs = .error e) ∧
      (∃ e, save_data_for_analysis render data0 data1 params fs = .error e)) ∧
    (fs.isdir sp = false →
      ∃ e, detect_outgroup serialize tree og dn m sp fs = .error e) ∧
    (fs.isdir sp = true → tree.rooted = false →
      ∃ e, detect_outgroup serialize tree og dn m sp fs = .error e) := by
  refine ⟨fun h => ⟨⟨"Path " ++ params.store_path ++ " does not exist", ?_⟩,
      ⟨"Path " ++ params.store_path ++ " does not exist", ?_⟩⟩,
    fun h => ⟨"Directory not exists", ?_⟩, fun h hr => ?_⟩
  · unfold save_distances_info
    rw [if_pos h]
  · unfold save_data_for_analysis
    rw [if_pos h]
  · unfold detect_outgroup
    rw [if_pos h]
  · refine ⟨"Tree is unrooted, not possible to detect outgroup", ?_⟩
    unfold detect_outgroup
    rw [if_neg (by simp [h]), if_pos hr]

/-- Witness for C7 on a filesystem with no directories and an unrooted
tree (plus a rooted tree against an existing directory for the last
conjunct). -/
theorem claim_C7_witness :
    ((⟨["out"], []⟩ : FS).isdir "nowhere" = false →
      (∃ e, save_distances_info "0.4" ⟨"ds", "m", "A", "B", "nowhere"⟩
        ⟨["out"], []⟩ = .error e) ∧
      (∃ e, save_data_for_analysis (fun _ : ℚ => "") []
        ([], []) ⟨"ds", "m", "A", "B", "nowhere"⟩ ⟨["out"], []⟩ = .error e)) ∧
    ((⟨["out"], []⟩ : FS).isdir "out" = false →
      ∃ e, detect_outgroup (fun _ => "") ⟨false, .mk none "" []⟩
        "A" "ds" "m" "out" ⟨["out"], []⟩ = .error e) ∧
    ((⟨["out"], []⟩ : FS).isdir "out" = true →
      (⟨false, Clade.mk none "" []⟩ : Tree).rooted = false →
      ∃ e, detect_outgroup (fun _ => "") ⟨false, .mk none "" []⟩
        "A" "ds" "m" "out" ⟨["out"], []⟩ = .error e) := by
  have h := claim_C7 (fun _ : ℚ => "") [] ([], [])
    "0.4" ⟨"ds", "m", "A", "B", "nowhere"⟩ (fun _ => "")
    ⟨false, .mk none "" []⟩ "A" "ds" "m" "out" ⟨["out"], []⟩
  exact ⟨fun _ => h.1 (by decide), h.2.1, h.2.2⟩

/-! ### Claim about save_data_for_analysis row assembly -/

/-- C3: every forward-map pair emits a row with the key n-gram in column
1 and the counterpart in column 2, every backward-map pair emits a row
with the two name columns swapped, and every identity-map key emits a
row with the token id. as counterpart and the DistRank metric label; on
the empty identity map, forward map kruh to (hlieb, 0.2) and empty
backward map with lect names Croatian and Slovak, the produced CSV has
exactly one data row Croatian=kruh, Slovak=hlieb, metric X - hybrid,
Distance 0.2. -/
theorem claim_C3 {α : Type} (metrics_name : String)
    (identity : List (String × α))
    (forward backward : List (String × List (String × α))) :
    ((∀ k pairs, (k, pairs) ∈ forward → ∀ o d, (o, d) ∈ pairs →
        (k, o, metrics_name ++ " - hybrid", d) ∈
          analysisRows metrics_name identity forward backward) ∧
      (∀ k pairs, (k, pairs) ∈ backward → ∀ o d, (o, d) ∈ pairs →
        (o, k, metrics_name ++ " - hybrid", d) ∈
          analysisRows metrics_name identity forward backward) ∧
      (∀ k v, (k, v) ∈ identity →
        (k, "id.", metrics_name ++ " - DistRank", v) ∈
          analysisRows metrics_name identity forward backward)) ∧
    (analysisRows "X" ([] : List (String × ℚ))
        [("kruh", [("hlieb", 0.2)])] [] =
        [("kruh", "hlieb", "X - hybrid", 0.2)] ∧
      infoResult (save_data_for_analysis (fun _ : ℚ => "0.2") []
          ([("kruh", [("hlieb", 0.2)])], [])
          ⟨"ds", "X", "Croatian", "Slovak", "out"⟩ ⟨["out"], []⟩)
        (pathJoin "out" "X_Croatian_Slovak.csv") =
        some "Croatian,Slovak,X,Distance\nkruh,hlieb,X - hybrid,0.2\n") := by
  refine ⟨⟨?_, ?_, ?_⟩, by with_unfolding_all decide,
    by with_unfolding_all decide⟩
  · intro k pairs hk o d hod
    have hne : forward.isEmpty = false := by
      cases forward
      · cases hk
      · rfl
    unfold analysisRows
    refine List.mem_append_right _ (List.mem_append_left _ ?_)
    rw [if_neg (by simp [hne])]
    refine List.mem_flatMap.mpr ⟨(k, pairs), hk, ?_⟩
    exact List.mem_map_of_mem _ hod
  · intro k pairs hk o d hod
    have hne : backward.isEmpty = false := by
      cases backward
      · cases hk
      · rfl
    unfold analysisRows
    refine List.mem_append_right _ (List.mem_append_right _ ?_)
    rw [if_neg (by simp [hne])]
    refine List.mem_flatMap.mpr ⟨(k, pairs), hk, ?_⟩
    exact List.mem_map_of_mem _ hod
  · intro k v hkv
    have hne : identity.isEmpty = false := by
      cases identity
      · cases hkv
      · rfl
    unfold analysisRows
    refine List.mem_append_left _ ?_
    rw [if_neg (by simp [hne])]
    exact List.mem_map_of_mem _ hkv

/-- Witness for C3: the forward-map row of the example is in the
assembled rows. -/
theorem claim_C3_witness :
    ("kruh", "hlieb", "X" ++ " - hybrid", (0.2 : ℚ)) ∈
      analysisRows "X" ([] : List (String × ℚ))
        [("kruh", [("hlieb", 0.2)])] [] :=
  (claim_C3 "X" ([] : List (String × ℚ))
      [("kruh", [("hlieb", 0.2)])] []).1.1
    "kruh" [("hlieb", 0.2)] (List.mem_singleton.mpr rfl) "hlieb" 0.2
    (List.mem_singleton.mpr rfl)

end CorpusDistance
